import Mathlib

/-!
Shallow embedding of the HockeyApp Android deploy step (`step.go`).

The step reads its configuration from environment variables, validates it,
builds a multipart POST request to the HockeyApp upload endpoint, performs
the request, and processes the response (parsing a three-field JSON record
on success and exporting result keys through `envman`).

The embedding models:
  * the configuration (`Config`) read from the environment;
  * the filesystem as a map from paths to stat results, together with the
    multiset of open file handles (`FSState`), so that the handle accounting
    of `createRequest` is visible;
  * the outbound request (`Request`) with its multipart body (`BodyPart`);
  * the network interaction as a `DoResult` (either a transport error with a
    nil response, or a response carrying a status code and a body read
    result);
  * the response body as an abstract JSON value (`JsonBody`) so that
    `json.Unmarshal` into `ResponseModel` is a field lookup with the Go
    zero-value default;
  * the observable behaviour of a run (`MainResult`): its outcome (normal
    exit 0, `os.Exit(1)` via `logFail`, or a runtime nil-pointer panic),
    the log lines printed, the key/value pairs exported via `envman`,
    the request that was handed to the HTTP client, and whether the network
    call and the JSON parse were reached.
-/

-- -----------------------
-- Constants (step.go lines 21-28)
-- -----------------------

def hockeyAppDeployStatusKey : String := "HOCKEYAPP_DEPLOY_STATUS"

def hockeyAppDeployStatusSuccess : String := "success"

def hockeyAppDeployStatusFailed : String := "failed"

def hockeyAppDeployPublicURLKey : String := "HOCKEYAPP_DEPLOY_PUBLIC_URL"

def hockeyAppDeployBuildURLKey : String := "HOCKEYAPP_DEPLOY_BUILD_URL"

def hockeyAppDeployConfigURLKey : String := "HOCKEYAPP_DEPLOY_CONFIG_URL"

-- -----------------------
-- Basic model types
-- -----------------------

/-- A Go `error` value, carrying its message. -/
inductive GoError where
  | message (s : String)
deriving Repr, DecidableEq

/-- Result of `os.Stat` on a path: the entry exists, it does not exist, or
the stat call itself fails with an error that is not `IsNotExist`. -/
inductive StatResult where
  | statExists
  | notFound
  | statFailed
deriving Repr, DecidableEq

/-- The filesystem: what `os.Stat` answers for each path. -/
def FileSystem : Type := String → StatResult

/-- Filesystem plus the multiset of file handles currently open, so that
handle allocation in `createRequest` (`os.Open`) is observable. -/
structure FSState where
  fs : FileSystem
  openHandles : List String

/-- The configuration of a run, as read from the environment variables in
`main` (step.go lines 149-160 and 166). -/
structure Config where
  apkPath : String
  mappingPath : String
  apiToken : String
  appID : String
  notes : String
  notesType : String
  notify : String
  status : String
  tags : String
  commitSHA : String
  buildServerURL : String
  repositoryURL : String
  mandatoryInput : String
deriving Repr, DecidableEq

/-- One part of the multipart request body: a scalar form field or a file
part identified by its form key and source path. -/
inductive BodyPart where
  | field (key value : String)
  | file (key path : String)
deriving Repr, DecidableEq

/-- The outbound HTTP request. -/
structure Request where
  method : String
  url : String
  headers : List (String × String)
  body : List BodyPart
deriving Repr, DecidableEq

/-- The body of an HTTP response, as seen by `json.Unmarshal`: either a JSON
object whose string-valued members are listed in order, or bytes that do not
parse as the expected record. -/
inductive JsonBody where
  | object (members : List (String × String))
  | invalid (raw : String)
deriving Repr, DecidableEq

instance {ε α : Type} [DecidableEq ε] [DecidableEq α] :
    DecidableEq (Except ε α) := fun x y =>
  match x, y with
  | Except.error a, Except.error b =>
      if h : a = b then isTrue (by rw [h]) else isFalse (by simp [h])
  | Except.error _, Except.ok _ => isFalse (by simp)
  | Except.ok _, Except.error _ => isFalse (by simp)
  | Except.ok a, Except.ok b =>
      if h : a = b then isTrue (by rw [h]) else isFalse (by simp [h])

/-- An HTTP response: status code plus the result of reading its body
(`ioutil.ReadAll` can fail). -/
structure Response where
  statusCode : Int
  body : Except GoError JsonBody
deriving Repr, DecidableEq

/-- The result of `client.Do` (step.go line 241): either a transport-level
failure, in which case the returned response is nil, or a response. -/
inductive DoResult where
  | failure (err : GoError)
  | success (resp : Response)
deriving Repr, DecidableEq

/-- Model of `ResponseModel` (step.go lines 35-39). -/
structure ResponseModel where
  ConfigURL : String
  PublicURL : String
  BuildURL : String
deriving Repr, DecidableEq

/-- How a run terminates: normal exit 0, `os.Exit(1)` through `logFail`, or
a runtime panic from dereferencing a nil response (Go exit status 2). -/
inductive Outcome where
  | exitSuccess
  | exitFail
  | panicNilDeref
deriving Repr, DecidableEq

-- -----------------------
-- Helper functions from step.go
-- -----------------------

/-- Model of `genericIsPathExists` / `IsPathExists` (step.go lines 76-94): empty path
is an error; otherwise consult `os.Stat`. -/
def IsPathExists (fs : FileSystem) (pth : String) : Except GoError Bool :=
  if pth = "" then Except.error (GoError.message "No path provided")
  else
    match fs pth with
    | StatResult.statExists => Except.ok true
    | StatResult.notFound => Except.ok false
    | StatResult.statFailed => Except.error (GoError.message "stat failed")

/-- The `mandatory` normalization in `main` (step.go lines 162-168):
`"1"` or `"true"` map to `"1"`, everything else to `"0"`. -/
def normalizeMandatory (s : String) : String :=
  if s = "1" ∨ s = "true" then "1" else "0"

/-- The request URL construction (step.go lines 210-213). -/
def requestURL (appID : String) : String :=
  if appID = "" then "https://rink.hockeyapp.net/api/2/apps/upload"
  else "https://rink.hockeyapp.net/api/2/apps/" ++ appID ++ "/app_versions/upload"

/-- The scalar form fields of the request (step.go lines 215-225). -/
def requestFields (cfg : Config) (mandatory : String) : List (String × String) :=
  [("notes", cfg.notes),
   ("notes_type", cfg.notesType),
   ("notify", cfg.notify),
   ("status", cfg.status),
   ("mandatory", mandatory),
   ("tags", cfg.tags),
   ("commit_sha", cfg.commitSHA),
   ("build_server_url", cfg.buildServerURL),
   ("repository_url", cfg.repositoryURL)]

/-- The file parts of the request (step.go lines 227-232): always the binary
under key `ipa`, plus the mapping file under key `dsym` when provided. -/
def requestFiles (cfg : Config) : List (String × String) :=
  [("ipa", cfg.apkPath)] ++
    (if cfg.mappingPath = "" then [] else [("dsym", cfg.mappingPath)])

/-- The file loop of `createRequest` (step.go lines 116-128): each file is
opened with `os.Open` (allocating a handle) and copied into the body; on an
open failure the function returns the error at once.  No file handle is ever
closed, neither on the error paths nor after a successful copy. -/
def addFiles : List (String × String) → List BodyPart → FSState →
    Except GoError (List BodyPart) × FSState
  | [], parts, st => (Except.ok parts, st)
  | (key, file) :: rest, parts, st =>
    match st.fs file with
    | StatResult.statExists =>
        addFiles rest (parts ++ [BodyPart.file key file])
          { st with openHandles := st.openHandles ++ [file] }
    | _ => (Except.error (GoError.message ("open " ++ file ++ ": failed")), st)

/-- Model of `createRequest` (step.go lines 104-140): write the scalar fields, copy
the files, close the multipart writer and build the POST request. -/
def createRequest (url : String) (fields files : List (String × String))
    (st : FSState) : Except GoError Request × FSState :=
  let fieldParts := fields.map (fun kv => BodyPart.field kv.1 kv.2)
  match addFiles files fieldParts st with
  | (Except.error e, st1) => (Except.error e, st1)
  | (Except.ok parts, st1) =>
      (Except.ok
        { method := "POST", url := url,
          headers := [("Content-Type", "multipart/form-data")],
          body := parts }, st1)

/-- First value of a scalar form field with the given key in the request
body, if any. -/
def Request.fieldValue (r : Request) (k : String) : Option String :=
  (r.body.filterMap (fun p =>
    match p with
    | BodyPart.field key v => if key = k then some v else none
    | BodyPart.file _ _ => none)).head?

-- -----------------------
-- JSON decoding (json.Unmarshal into ResponseModel)
-- -----------------------

/-- The string value `json.Unmarshal` assigns to a struct field tagged with
`key`: the last member of the object with that name, or the Go zero value
`""` when the member is absent. -/
def jsonField (members : List (String × String)) (key : String) : String :=
  match members.reverse.find? (fun kv => kv.1 = key) with
  | some kv => kv.2
  | none => ""

/-- Model of `json.Unmarshal([]byte(contents), &responseModel)` (step.go line 284). -/
def unmarshal : JsonBody → Except GoError ResponseModel
  | JsonBody.object members =>
      Except.ok
        { ConfigURL := jsonField members "config_url",
          PublicURL := jsonField members "public_url",
          BuildURL := jsonField members "build_url" }
  | JsonBody.invalid raw =>
      Except.error (GoError.message ("invalid response body: " ++ raw))

/-- Rendering of a body for the `body: %s` log lines. -/
def renderBody : JsonBody → String
  | JsonBody.object members =>
      String.intercalate "," (members.map (fun kv => kv.1 ++ "=" ++ kv.2))
  | JsonBody.invalid raw => raw

-- -----------------------
-- main: configuration log and validation
-- -----------------------

/-- The configuration log block (step.go lines 170-183).  The api_token
line prints the literal `***` instead of the token value. -/
def configLogs (cfg : Config) (mandatory : String) : List String :=
  ["Configs:",
   "apk_path: " ++ cfg.apkPath,
   "mapping_path: " ++ cfg.mappingPath,
   "api_token: ***",
   "app_id: " ++ cfg.appID,
   "notes: " ++ cfg.notes,
   "notes_type: " ++ cfg.notesType,
   "notify: " ++ cfg.notify,
   "status: " ++ cfg.status,
   "mandatory: " ++ mandatory,
   "tags: " ++ cfg.tags,
   "commit_sha: " ++ cfg.commitSHA,
   "build_server_url: " ++ cfg.buildServerURL,
   "repository_url: " ++ cfg.repositoryURL]

/-- The mapping-path check (step.go lines 194-200): only performed when a
mapping path was provided; returns the failure message, if any. -/
def checkMapping (cfg : Config) (fs : FileSystem) : Option String :=
  if cfg.mappingPath = "" then none
  else
    match IsPathExists fs cfg.mappingPath with
    | Except.error _ =>
        some ("Failed to check if mapping (" ++ cfg.mappingPath ++ ") exist")
    | Except.ok false =>
        some ("No mapping found to deploy. Specified path was: " ++ cfg.mappingPath)
    | Except.ok true => none

/-- The validation sequence of `main` (step.go lines 185-204), returning the
`logFail` message of the first failing check, or `none` when all pass. -/
def validate (cfg : Config) (fs : FileSystem) : Option String :=
  if cfg.apkPath = "" then some "Missing required input: apk_path"
  else
    match IsPathExists fs cfg.apkPath with
    | Except.error _ =>
        some ("Failed to check if apk (" ++ cfg.apkPath ++ ") exist")
    | Except.ok false =>
        some ("No apk found to deploy. Specified path was: " ++ cfg.apkPath)
    | Except.ok true =>
      match checkMapping cfg fs with
      | some msg => some msg
      | none =>
        if cfg.apiToken = "" then
          some "No App api_token provided as environment variable. Terminating..."
        else none

-- -----------------------
-- main: response processing
-- -----------------------

/-- Observable result of the response-processing phase (step.go lines
240-313): outcome, log lines, envman exports and whether `json.Unmarshal`
was reached. -/
structure ProcResult where
  outcome : Outcome
  logs : List String
  exports : List (String × String)
  parsed : Bool
deriving Repr, DecidableEq

/-- Response processing (step.go lines 240-313).

On a transport failure `client.Do` returns a nil response together with the
error; the very next statements, `defer response.Body.Close()` and
`ioutil.ReadAll(response.Body)` (lines 243-244), dereference the nil
response and panic before the `requestErr != nil` branch (lines 250-259) can
run, so nothing is logged or exported on that path.

Otherwise the status check of line 261 (`StatusCode < 200 ||
StatusCode > 300`) decides between the failure branch (log the response,
`logFail`, which exports the failed status and exits 1) and the success
branch (log the response, parse the body, log the non-empty URLs and export
the status and the three URL keys). -/
def processResponse (net : DoResult) : ProcResult :=
  match net with
  | DoResult.failure _ =>
      { outcome := Outcome.panicNilDeref, logs := [], exports := [], parsed := false }
  | DoResult.success resp =>
    if resp.statusCode < 200 ∨ resp.statusCode > 300 then
      match resp.body with
      | Except.error _ =>
          { outcome := Outcome.exitFail,
            logs := ["Failed to read response body",
                     "Performing request failed, status code: " ++ toString resp.statusCode],
            exports := [(hockeyAppDeployStatusKey, hockeyAppDeployStatusFailed)],
            parsed := false }
      | Except.ok b =>
          { outcome := Outcome.exitFail,
            logs := ["Response:",
                     "status code: " ++ toString resp.statusCode,
                     "body: " ++ renderBody b,
                     "Performing request failed, status code: " ++ toString resp.statusCode],
            exports := [(hockeyAppDeployStatusKey, hockeyAppDeployStatusFailed)],
            parsed := false }
    else
      match resp.body with
      | Except.error _ =>
          { outcome := Outcome.exitFail,
            logs := ["Request succed", "Response:",
                     "status code: " ++ toString resp.statusCode,
                     "body: ",
                     "Failed to read response body"],
            exports := [(hockeyAppDeployStatusKey, hockeyAppDeployStatusFailed)],
            parsed := false }
      | Except.ok b =>
        let baseLogs := ["Request succed", "Response:",
                         "status code: " ++ toString resp.statusCode,
                         "body: " ++ renderBody b]
        match unmarshal b with
        | Except.error _ =>
            { outcome := Outcome.exitFail,
              logs := baseLogs ++ ["Failed to parse response body"],
              exports := [(hockeyAppDeployStatusKey, hockeyAppDeployStatusFailed)],
              parsed := true }
        | Except.ok m =>
            { outcome := Outcome.exitSuccess,
              logs := baseLogs ++
                (if m.PublicURL = "" then [] else ["Public URL: " ++ m.PublicURL]) ++
                (if m.BuildURL = "" then [] else
                  ["Build (direct download) URL: " ++ m.BuildURL]) ++
                (if m.ConfigURL = "" then [] else ["Config URL: " ++ m.ConfigURL]),
              exports := [(hockeyAppDeployStatusKey, hockeyAppDeployStatusSuccess),
                          (hockeyAppDeployPublicURLKey, m.PublicURL),
                          (hockeyAppDeployBuildURLKey, m.BuildURL),
                          (hockeyAppDeployConfigURLKey, m.ConfigURL)],
              parsed := true }

-- -----------------------
-- main: the whole run
-- -----------------------

/-- Observable result of a whole run of `main`. -/
structure MainResult where
  outcome : Outcome
  logs : List String
  preNetworkLogs : List String
  exports : List (String × String)
  request : Option Request
  networkCalled : Bool
  parsed : Bool
deriving Repr, DecidableEq

/-- The `MainResult` of a run that stops in `logFail` before the network
call: the failed status is exported, the message is logged, exit 1. -/
def failBeforeNetwork (pre : List String) (msg : String) : MainResult :=
  { outcome := Outcome.exitFail,
    logs := pre ++ [msg],
    preNetworkLogs := pre ++ [msg],
    exports := [(hockeyAppDeployStatusKey, hockeyAppDeployStatusFailed)],
    request := none,
    networkCalled := false,
    parsed := false }

/-- Model of `main` (step.go lines 146-314), as a function of the configuration, the
filesystem state and the behaviour of the network.  Returns the observable
result of the run; the final filesystem state is that of `createRequest`
(the only place handles are opened). -/
def mainRun (cfg : Config) (st : FSState) (net : DoResult) : MainResult :=
  let mandatory := normalizeMandatory cfg.mandatoryInput
  let logs0 := configLogs cfg mandatory
  match validate cfg st.fs with
  | some msg => failBeforeNetwork logs0 msg
  | none =>
    let pre := logs0 ++ ["Performing request"]
    let url := requestURL cfg.appID
    match createRequest url (requestFields cfg mandatory) (requestFiles cfg) st with
    | (Except.error _, _) => failBeforeNetwork pre "Failed to create request"
    | (Except.ok req, _) =>
      let req1 := { req with
        headers := req.headers ++ [("X-HockeyAppToken", cfg.apiToken)] }
      let proc := processResponse net
      { outcome := proc.outcome,
        logs := pre ++ proc.logs,
        preNetworkLogs := pre,
        exports := proc.exports,
        request := some req1,
        networkCalled := true,
        parsed := proc.parsed }

/-- The log lines a run prints before the HTTP client is invoked. -/
def preTrace (cfg : Config) (st : FSState) : List String :=
  let logs0 := configLogs cfg (normalizeMandatory cfg.mandatoryInput)
  match validate cfg st.fs with
  | some msg => logs0 ++ [msg]
  | none =>
    match (createRequest (requestURL cfg.appID)
        (requestFields cfg (normalizeMandatory cfg.mandatoryInput))
        (requestFiles cfg) st).1 with
    | Except.error _ => (logs0 ++ ["Performing request"]) ++ ["Failed to create request"]
    | Except.ok _ => logs0 ++ ["Performing request"]

-- -----------------------
-- Helper lemmas
-- -----------------------

lemma IsPathExists_ok_true_iff (fs : FileSystem) (p : String) :
    IsPathExists fs p = Except.ok true ↔ (p ≠ "" ∧ fs p = StatResult.statExists) := by
  unfold IsPathExists
  by_cases hp : p = ""
  · simp [hp]
  · simp only [if_neg hp]
    cases hfs : fs p <;> simp [hp]

lemma checkMapping_eq_none_iff (cfg : Config) (fs : FileSystem) :
    checkMapping cfg fs = none ↔
      (cfg.mappingPath = "" ∨ fs cfg.mappingPath = StatResult.statExists) := by
  unfold checkMapping IsPathExists
  by_cases hm : cfg.mappingPath = ""
  · simp [hm]
  · simp only [if_neg hm]
    cases hfs : fs cfg.mappingPath <;> simp [hm]

lemma validate_eq_none_iff (cfg : Config) (fs : FileSystem) :
    validate cfg fs = none ↔
      (cfg.apkPath ≠ "" ∧ IsPathExists fs cfg.apkPath = Except.ok true ∧
       checkMapping cfg fs = none ∧ cfg.apiToken ≠ "") := by
  unfold validate
  by_cases ha : cfg.apkPath = ""
  · simp [ha]
  · simp only [if_neg ha, ne_eq, ha, not_false_iff, true_and]
    cases hpe : IsPathExists fs cfg.apkPath with
    | error g => simp [hpe]
    | ok b =>
      cases b
      · simp [hpe]
      · simp only [hpe]
        cases hcm : checkMapping cfg fs with
        | some m => simp [hcm]
        | none =>
          simp only [hcm]
          by_cases ht : cfg.apiToken = "" <;> simp [ht]

lemma mainRun_eq_fail_of_validate (cfg : Config) (st : FSState) (net : DoResult)
    (msg : String) (h : validate cfg st.fs = some msg) :
    mainRun cfg st net =
      failBeforeNetwork (configLogs cfg (normalizeMandatory cfg.mandatoryInput)) msg := by
  unfold mainRun
  rw [h]

lemma addFiles_ok (files : List (String × String)) (parts ps : List BodyPart)
    (st st1 : FSState) (h : addFiles files parts st = (Except.ok ps, st1)) :
    ∃ extra, ps = parts ++ extra ∧ ∀ p ∈ extra, ∃ k f, p = BodyPart.file k f := by
  induction files generalizing parts st with
  | nil =>
    simp only [addFiles, Prod.mk.injEq, Except.ok.injEq] at h
    exact ⟨[], by simp [h.1], by simp⟩
  | cons kv rest ih =>
    obtain ⟨key, file⟩ := kv
    simp only [addFiles] at h
    cases hfs : st.fs file with
    | statExists =>
      rw [hfs] at h
      obtain ⟨extra, hex, hall⟩ := ih _ _ h
      refine ⟨BodyPart.file key file :: extra, by simp [hex], ?_⟩
      intro p hp
      rcases List.mem_cons.1 hp with hp | hp
      · exact ⟨key, file, hp⟩
      · exact hall p hp
    | notFound => rw [hfs] at h; simp at h
    | statFailed => rw [hfs] at h; simp at h

lemma createRequest_ok (u : String) (fields files : List (String × String))
    (st st1 : FSState) (r : Request)
    (h : createRequest u fields files st = (Except.ok r, st1)) :
    r.method = "POST" ∧ r.url = u ∧
    ∃ extra, r.body = fields.map (fun kv => BodyPart.field kv.1 kv.2) ++ extra ∧
      ∀ p ∈ extra, ∃ k f, p = BodyPart.file k f := by
  unfold createRequest at h
  simp only [] at h
  cases hc : addFiles files (fields.map (fun kv => BodyPart.field kv.1 kv.2)) st with
  | mk e st2 =>
    rw [hc] at h
    cases e with
    | error g => simp at h
    | ok parts =>
      simp only [Prod.mk.injEq, Except.ok.injEq] at h
      obtain ⟨hr, _⟩ := h
      subst hr
      exact ⟨rfl, rfl, addFiles_ok files _ parts st st2 hc⟩

lemma mainRun_request_eq_some (cfg : Config) (st : FSState) (net : DoResult)
    (req : Request) (h : (mainRun cfg st net).request = some req) :
    ∃ r st1, createRequest (requestURL cfg.appID)
        (requestFields cfg (normalizeMandatory cfg.mandatoryInput))
        (requestFiles cfg) st = (Except.ok r, st1) ∧
      req = { r with headers := r.headers ++ [("X-HockeyAppToken", cfg.apiToken)] } := by
  unfold mainRun at h
  simp only [] at h
  cases hval : validate cfg st.fs with
  | some msg => rw [hval] at h; simp [failBeforeNetwork] at h
  | none =>
    rw [hval] at h
    simp only [] at h
    cases hc : createRequest (requestURL cfg.appID)
        (requestFields cfg (normalizeMandatory cfg.mandatoryInput))
        (requestFiles cfg) st with
    | mk e st1 =>
      rw [hc] at h
      cases e with
      | error g => simp [failBeforeNetwork] at h
      | ok r =>
        simp only [Option.some.injEq] at h
        exact ⟨r, st1, rfl, h.symm⟩

lemma mainRun_preNetworkLogs (cfg : Config) (st : FSState) (net : DoResult) :
    (mainRun cfg st net).preNetworkLogs = preTrace cfg st := by
  unfold mainRun preTrace
  simp only []
  cases hval : validate cfg st.fs with
  | some msg => rfl
  | none =>
    cases hc : createRequest (requestURL cfg.appID)
        (requestFields cfg (normalizeMandatory cfg.mandatoryInput))
        (requestFiles cfg) st with
    | mk e st1 =>
      cases e with
      | error g => simp [hc, failBeforeNetwork]
      | ok r => simp [hc]

lemma validate_update_token (cfg : Config) (t : String) (fs : FileSystem)
    (h1 : cfg.apiToken ≠ "") (h2 : t ≠ "") :
    validate { cfg with apiToken := t } fs = validate cfg fs := by
  unfold validate checkMapping IsPathExists
  simp [h1, h2]

lemma mem_configLogs (cfg : Config) (m : String) :
    "api_token: ***" ∈ configLogs cfg m := by
  simp [configLogs]

lemma jsonField_absent (members : List (String × String)) (key : String)
    (h : ∀ kv ∈ members, kv.1 ≠ key) : jsonField members key = "" := by
  unfold jsonField
  have hn : members.reverse.find? (fun kv => kv.1 = key) = none := by
    rw [List.find?_eq_none]
    intro kv hkv
    simp only [decide_eq_true_eq]
    exact h kv (List.mem_reverse.1 hkv)
  rw [hn]

-- -----------------------
-- Concrete sample inputs
-- -----------------------

/-- A filesystem on which every path exists. -/
def fsAll : FileSystem := fun _ => StatResult.statExists

/-- A filesystem on which no path exists. -/
def fsNone : FileSystem := fun _ => StatResult.notFound

def stSample : FSState := { fs := fsAll, openHandles := [] }

def stNone : FSState := { fs := fsNone, openHandles := [] }

/-- A well-formed sample configuration. -/
def cfgSample : Config :=
  { apkPath := "app.apk", mappingPath := "", apiToken := "secret-token",
    appID := "", notes := "", notesType := "", notify := "", status := "",
    tags := "", commitSHA := "", buildServerURL := "", repositoryURL := "",
    mandatoryInput := "TRUE" }

/-- The sample configuration with the required binary path left empty. -/
def cfgNoApk : Config := { cfgSample with apkPath := "" }

/-- The sample configuration pointing at a non-existing binary. -/
def cfgGhost : Config := { cfgSample with apkPath := "ghost.apk" }

/-- A network that answers 200 with an empty JSON object. -/
def netOK : DoResult :=
  DoResult.success { statusCode := 200, body := Except.ok (JsonBody.object []) }

/-- The request the sample run hands to the HTTP client. -/
def reqSample : Request :=
  ((mainRun cfgSample stSample netOK).request).getD
    { method := "", url := "", headers := [], body := [] }

-- -----------------------
-- Claim theorems
-- -----------------------

/-- C1 (counterexample): a response with status code exactly 300 is not
classified as failure: the run ends in a normal exit 0 and the body is
parsed, refuting the claimed half-open success interval [200, 300). -/
theorem status300TreatedAsSuccess :
    (processResponse (DoResult.success
      { statusCode := 300, body := Except.ok (JsonBody.object []) })).outcome =
        Outcome.exitSuccess ∧
    (processResponse (DoResult.success
      { statusCode := 300, body := Except.ok (JsonBody.object []) })).parsed = true :=
  ⟨rfl, rfl⟩

/-- C1 (amended): for every response whose body reads and parses as a JSON
object, the run is classified as success (normal exit, body parsed) exactly
when the status code lies in the closed interval [200, 300]; in particular
status 300 is treated as success, not failure. -/
theorem responseStatusClassification (sc : Int) (members : List (String × String)) :
    ((processResponse (DoResult.success
        { statusCode := sc, body := Except.ok (JsonBody.object members) })).outcome =
          Outcome.exitSuccess ↔ (200 ≤ sc ∧ sc ≤ 300)) ∧
    ((processResponse (DoResult.success
        { statusCode := sc, body := Except.ok (JsonBody.object members) })).parsed =
          true ↔ (200 ≤ sc ∧ sc ≤ 300)) := by
  simp only [processResponse]
  by_cases h : sc < 200 ∨ sc > 300
  · simp only [if_pos h]
    simp [unmarshal]
    omega
  · simp only [if_neg h]
    simp [unmarshal]
    omega

/-- C2 (code bug): on a transport-level failure of the POST the run panics
on the nil response dereference (`defer response.Body.Close()` /
`ioutil.ReadAll` on a nil response) before the error-handling branch can
run: nothing is logged about the failure, nothing is exported, and the
process does not reach the `os.Exit(1)` path the claim describes. -/
theorem transportFailurePanics (e : GoError) :
    (mainRun cfgSample stSample (DoResult.failure e)).outcome =
      Outcome.panicNilDeref ∧
    (mainRun cfgSample stSample (DoResult.failure e)).exports = [] ∧
    (mainRun cfgSample stSample (DoResult.failure e)).networkCalled = true ∧
    processResponse (DoResult.failure e) =
      { outcome := Outcome.panicNilDeref, logs := [], exports := [], parsed := false } :=
  ⟨rfl, rfl, rfl, rfl⟩

/-- C3 (code bug): `createRequest` never closes the files it opens: starting
from a state with no open handles, a successful construction with one file
part returns with that file's handle still open, and an aborted construction
(second file missing) returns with the first file's handle still open. -/
theorem createRequestLeaksOpenHandles :
    stSample.openHandles = [] ∧
    (createRequest (requestURL "") [] [("ipa", "app.apk")] stSample).2.openHandles =
      ["app.apk"] ∧
    (createRequest (requestURL "") []
      [("ipa", "app.apk"), ("dsym", "missing.txt")]
      { fs := fun p => if p = "app.apk" then StatResult.statExists else StatResult.notFound,
        openHandles := [] }).2.openHandles = ["app.apk"] :=
  ⟨rfl, rfl, rfl⟩

/-- C4: whenever a required input is missing (empty `apk_path` or empty
`api_token`), the run exits with `os.Exit(1)` before any network call is
attempted (and before any request is constructed). -/
theorem missingRequiredInputExitsBeforeNetwork (cfg : Config) (st : FSState)
    (net : DoResult) (h : cfg.apkPath = "" ∨ cfg.apiToken = "") :
    (mainRun cfg st net).outcome = Outcome.exitFail ∧
    (mainRun cfg st net).networkCalled = false ∧
    (mainRun cfg st net).request = none := by
  have hval : validate cfg st.fs ≠ none := by
    intro hnone
    rw [validate_eq_none_iff] at hnone
    obtain ⟨ha, _, _, ht⟩ := hnone
    cases h with
    | inl hh => exact ha hh
    | inr hh => exact ht hh
  cases hv : validate cfg st.fs with
  | none => exact absurd hv hval
  | some msg =>
    rw [mainRun_eq_fail_of_validate cfg st net msg hv]
    exact ⟨rfl, rfl, rfl⟩

/-- C4 witness: the sample configuration with empty `apk_path` exits 1
without a network call. -/
theorem missingRequiredInputExitsBeforeNetwork_witness :
    (cfgNoApk.apkPath = "" ∨ cfgNoApk.apiToken = "") ∧
    ((mainRun cfgNoApk stSample netOK).outcome = Outcome.exitFail ∧
     (mainRun cfgNoApk stSample netOK).networkCalled = false ∧
     (mainRun cfgNoApk stSample netOK).request = none) :=
  ⟨Or.inl rfl,
   missingRequiredInputExitsBeforeNetwork cfgNoApk stSample netOK (Or.inl rfl)⟩

/-- C5: whenever the binary path does not reference an existing filesystem
entry (it is empty, the entry is missing, or `os.Stat` errors), or a
non-empty mapping path does not reference an existing entry, the run exits 1
before any HTTP request is constructed. -/
theorem missingPathExitsBeforeRequest (cfg : Config) (st : FSState)
    (net : DoResult)
    (h : (cfg.apkPath = "" ∨ st.fs cfg.apkPath ≠ StatResult.statExists) ∨
         (cfg.mappingPath ≠ "" ∧ st.fs cfg.mappingPath ≠ StatResult.statExists)) :
    (mainRun cfg st net).outcome = Outcome.exitFail ∧
    (mainRun cfg st net).request = none ∧
    (mainRun cfg st net).networkCalled = false := by
  have hval : validate cfg st.fs ≠ none := by
    intro hnone
    rw [validate_eq_none_iff] at hnone
    obtain ⟨ha, hpe, hcm, ht⟩ := hnone
    rw [IsPathExists_ok_true_iff] at hpe
    rw [checkMapping_eq_none_iff] at hcm
    rcases h with hapk | ⟨hm1, hm2⟩
    · rcases hapk with he | hne
      · exact ha he
      · exact hne hpe.2
    · rcases hcm with hcm | hcm
      · exact hm1 hcm
      · exact hm2 hcm
  cases hv : validate cfg st.fs with
  | none => exact absurd hv hval
  | some msg =>
    rw [mainRun_eq_fail_of_validate cfg st net msg hv]
    exact ⟨rfl, rfl, rfl⟩

/-- C5 witness: the sample configuration pointing at `ghost.apk` on a
filesystem with no entries exits 1 without constructing a request. -/
theorem missingPathExitsBeforeRequest_witness :
    ((cfgGhost.apkPath = "" ∨ stNone.fs cfgGhost.apkPath ≠ StatResult.statExists) ∨
     (cfgGhost.mappingPath ≠ "" ∧ stNone.fs cfgGhost.mappingPath ≠ StatResult.statExists)) ∧
    ((mainRun cfgGhost stNone netOK).outcome = Outcome.exitFail ∧
     (mainRun cfgGhost stNone netOK).request = none ∧
     (mainRun cfgGhost stNone netOK).networkCalled = false) :=
  ⟨Or.inl (Or.inr (by decide)),
   missingPathExitsBeforeRequest cfgGhost stNone netOK (Or.inl (Or.inr (by decide)))⟩

/-- C6: every response with status 404 makes the run exit 1 without ever
reaching `json.Unmarshal`, and the only key exported is the deploy-status
key with value `failed` - whatever the body is and even if reading it
failed. -/
theorem status404FailsWithoutParsing (body : Except GoError JsonBody) :
    (processResponse (DoResult.success { statusCode := 404, body := body })).outcome =
      Outcome.exitFail ∧
    (processResponse (DoResult.success { statusCode := 404, body := body })).parsed =
      false ∧
    (processResponse (DoResult.success { statusCode := 404, body := body })).exports =
      [(hockeyAppDeployStatusKey, hockeyAppDeployStatusFailed)] := by
  cases body <;> exact ⟨rfl, rfl, rfl⟩

/-- C7: whichever request a run hands to the HTTP client, its URL is the
generic upload endpoint when `app_id` is empty and the per-app
`app_versions/upload` endpoint with `app_id` substituted otherwise. -/
theorem requestURLMatchesTemplate (cfg : Config) (st : FSState) (net : DoResult)
    (req : Request) (h : (mainRun cfg st net).request = some req) :
    req.url = (if cfg.appID = "" then "https://rink.hockeyapp.net/api/2/apps/upload"
      else "https://rink.hockeyapp.net/api/2/apps/" ++ cfg.appID ++
        "/app_versions/upload") := by
  obtain ⟨r, st1, hc, hreq⟩ := mainRun_request_eq_some cfg st net req h
  obtain ⟨_, hurl, _⟩ := createRequest_ok _ _ _ _ _ _ hc
  subst hreq
  simpa [requestURL] using hurl

/-- C7 witness: the sample run with empty `app_id` posts to the generic
upload endpoint. -/
theorem requestURLMatchesTemplate_witness :
    (mainRun cfgSample stSample netOK).request = some reqSample ∧
    reqSample.url = "https://rink.hockeyapp.net/api/2/apps/upload" := by
  have h : (mainRun cfgSample stSample netOK).request = some reqSample := rfl
  refine ⟨h, ?_⟩
  have hu := requestURLMatchesTemplate cfgSample stSample netOK reqSample h
  simpa [cfgSample] using hu

/-- C8: in whichever request a run hands to the HTTP client, the `mandatory`
form field carries `"1"` exactly when the `mandatory` input is `"1"` or
`"true"`, and `"0"` for every other input value. -/
theorem mandatoryFieldNormalization (cfg : Config) (st : FSState)
    (net : DoResult) (req : Request)
    (h : (mainRun cfg st net).request = some req) :
    req.fieldValue "mandatory" =
      some (if cfg.mandatoryInput = "1" ∨ cfg.mandatoryInput = "true"
            then "1" else "0") := by
  obtain ⟨r, st1, hc, hreq⟩ := mainRun_request_eq_some cfg st net req h
  obtain ⟨_, _, extra, hbody, hall⟩ := createRequest_ok _ _ _ _ _ _ hc
  subst hreq
  unfold Request.fieldValue
  simp only []
  rw [hbody]
  simp [requestFields, normalizeMandatory]

/-- C8 witness: the sample run, whose `mandatory` input is `"TRUE"`, sends
the normalized value `"0"`. -/
theorem mandatoryFieldNormalization_witness :
    (mainRun cfgSample stSample netOK).request = some reqSample ∧
    ¬(cfgSample.mandatoryInput = "1" ∨ cfgSample.mandatoryInput = "true") ∧
    reqSample.fieldValue "mandatory" = some "0" := by
  have h : (mainRun cfgSample stSample netOK).request = some reqSample := rfl
  refine ⟨h, by decide, ?_⟩
  have hm := mandatoryFieldNormalization cfgSample stSample netOK reqSample h
  simpa [cfgSample] using hm

/-- C9: on the success path (status in range, body read and parsed), the
exported values are exactly the deploy status `success` followed by the
three URL fields as decoded from the JSON object, byte for byte; and for
each URL field, absence of the member in the JSON body yields the empty
string rather than an error. -/
theorem successExportsRoundTrip (sc : Int) (members : List (String × String))
    (h1 : 200 ≤ sc) (h2 : sc ≤ 300) :
    (processResponse (DoResult.success
        { statusCode := sc, body := Except.ok (JsonBody.object members) })).exports =
      [(hockeyAppDeployStatusKey, hockeyAppDeployStatusSuccess),
       (hockeyAppDeployPublicURLKey, jsonField members "public_url"),
       (hockeyAppDeployBuildURLKey, jsonField members "build_url"),
       (hockeyAppDeployConfigURLKey, jsonField members "config_url")] ∧
    ((∀ kv ∈ members, kv.1 ≠ "public_url") → jsonField members "public_url" = "") ∧
    ((∀ kv ∈ members, kv.1 ≠ "build_url") → jsonField members "build_url" = "") ∧
    ((∀ kv ∈ members, kv.1 ≠ "config_url") → jsonField members "config_url" = "") := by
  have hns : ¬(sc < 200 ∨ sc > 300) := by omega
  refine ⟨?_, jsonField_absent members _, jsonField_absent members _,
    jsonField_absent members _⟩
  simp only [processResponse, if_neg hns, unmarshal]

/-- C9 witness: a 200 response whose object carries only `public_url`
exports that URL unchanged and the empty string for the two absent
fields. -/
theorem successExportsRoundTrip_witness :
    (processResponse (DoResult.success
        { statusCode := 200,
          body := Except.ok (JsonBody.object [("public_url", "P")]) })).exports =
      [(hockeyAppDeployStatusKey, hockeyAppDeployStatusSuccess),
       (hockeyAppDeployPublicURLKey, jsonField [("public_url", "P")] "public_url"),
       (hockeyAppDeployBuildURLKey, jsonField [("public_url", "P")] "build_url"),
       (hockeyAppDeployConfigURLKey, jsonField [("public_url", "P")] "config_url")] ∧
    ((∀ kv ∈ [("public_url", "P")], kv.1 ≠ "public_url") →
      jsonField [("public_url", "P")] "public_url" = "") ∧
    ((∀ kv ∈ [("public_url", "P")], kv.1 ≠ "build_url") →
      jsonField [("public_url", "P")] "build_url" = "") ∧
    ((∀ kv ∈ [("public_url", "P")], kv.1 ≠ "config_url") →
      jsonField [("public_url", "P")] "config_url" = "") :=
  successExportsRoundTrip 200 [("public_url", "P")] (by decide) (by decide)

/-- C10: two runs whose configurations differ only in a (non-empty)
api_token value print identical diagnostic logs before the network call,
and that log contains the literal `api_token: ***` line in place of the
token. -/
theorem preNetworkLogsTokenIndependent (cfg : Config) (t : String)
    (st : FSState) (net : DoResult)
    (h1 : cfg.apiToken ≠ "") (h2 : t ≠ "") :
    (mainRun { cfg with apiToken := t } st net).preNetworkLogs =
      (mainRun cfg st net).preNetworkLogs ∧
    "api_token: ***" ∈ (mainRun cfg st net).preNetworkLogs := by
  rw [mainRun_preNetworkLogs, mainRun_preNetworkLogs]
  constructor
  · unfold preTrace
    rw [validate_update_token cfg t st.fs h1 h2]
    rfl
  · unfold preTrace
    simp only []
    cases hval : validate cfg st.fs with
    | some msg => exact List.mem_append_left _ (mem_configLogs cfg _)
    | none =>
      cases hcr : (createRequest (requestURL cfg.appID)
          (requestFields cfg (normalizeMandatory cfg.mandatoryInput))
          (requestFiles cfg) st).1 with
      | error g =>
          exact List.mem_append_left _
            (List.mem_append_left _ (mem_configLogs cfg _))
      | ok r => exact List.mem_append_left _ (mem_configLogs cfg _)

/-- C10 witness: the sample run and its variant with token `other-token`
print the same pre-network logs, masking the token as `***`. -/
theorem preNetworkLogsTokenIndependent_witness :
    cfgSample.apiToken ≠ "" ∧ ("other-token" : String) ≠ "" ∧
    ((mainRun { cfgSample with apiToken := "other-token" } stSample netOK).preNetworkLogs =
       (mainRun cfgSample stSample netOK).preNetworkLogs ∧
     "api_token: ***" ∈ (mainRun cfgSample stSample netOK).preNetworkLogs) :=
  ⟨by decide, by decide,
   preNetworkLogsTokenIndependent cfgSample "other-token" stSample netOK
     (by decide) (by decide)⟩
